import Mathlib

/-!
Verification of the OS/161 per-process file table and reference-counted
open-file handle layer (`kern/syscall/file.c`).

The C code is embedded shallowly:

* The kernel heap of `openfile` allocations is a function `Nat → Option OpenFile`
  (handle id ↦ live record); `none` means the memory is not a live `openfile`.
* Per-handle locks and VFS-side vnode reference counts are tracked as
  functions so that resource-leak claims can be stated exactly.
* `curproc->files` is `Option (List (Option Nat))`: `none` models an unset
  table pointer, a slot's `Option Nat` holds the referenced handle id.
* The VFS collaborator (`vfs_open`/`vfs_close`) is opaque in the source;
  it is modelled by oracle arguments: an `Except` value giving the vnode
  `vfs_open` resolves (or the error it reports), and a `closeStatus`
  oracle giving the status the underlying close would report.  The C code
  discards that status (`vfs_close` is called as a statement), and so does
  the embedding.
* `kmalloc`/`lock_create` success is an oracle `Bool` per call site.
* `KASSERT` failure (a kernel panic, not an error return) is the `kfail`
  outcome; normal returns carry the C `int` result code via `ret`.
-/

/-- Error codes from `kern/errno.h` (header outside the analysed sources);
only their distinctness and nonzeroness matter to this code. -/
def ENOMEM : Nat := 2

/-- Bad file descriptor. -/
def EBADF : Nat := 30

/-- Too many open files (per process). -/
def EMFILE : Nat := 28

/-- Flag `O_RDONLY` from `kern/fcntl.h`. -/
def O_RDONLY : Nat := 0

/-- Flag `O_WRONLY` from `kern/fcntl.h`. -/
def O_WRONLY : Nat := 1

/-- Flag `O_RDWR` from `kern/fcntl.h`. -/
def O_RDWR : Nat := 2

/-- Mask selecting the access-mode bits of the open flags. -/
def O_ACCMODE : Nat := 3

/-- Size of the per-process descriptor table (`OPEN_MAX` from
`kern/limits.h`, the spec's `MAX_DESCRIPTORS`); the claims never depend on
its numeric value. -/
def OPEN_MAX : Nat := 128

/-- The `openfile` record: wraps one vnode, a seek offset, the access
mode and the reference count (`file->vn`, `file->offset`, `file->mode`,
`file->refs`).  The per-handle lock is tracked separately in `Sys`. -/
structure OpenFile where
  vn : Nat
  offset : Nat
  mode : Nat
  refs : Nat
deriving Repr, DecidableEq

/-- Outcome of a kernel routine: a normal return carrying the C result
value, or a `KASSERT` failure / invalid-pointer dereference (kernel
panic). -/
inductive KOut (α : Type) where
  | ret : α → KOut α
  | kfail : KOut α
deriving Repr, DecidableEq

/-- Machine state visible to `file.c`: the current process's descriptor
table, the heap of live `openfile` allocations, which handle locks exist,
the VFS-side open count of each vnode, the oracle for the status the
underlying VFS close reports, and the allocator's next fresh handle id. -/
structure Sys where
  files : Option (List (Option Nat))
  heap : Nat → Option OpenFile
  lockLive : Nat → Bool
  vnodeRefs : Nat → Nat
  closeStatus : Nat → Nat
  nextId : Nat

/-- Model of the opaque `vfs_close(vn)` collaborator call: drops one
VFS-side reference and reports a status (which `file.c` discards). -/
def vfs_close (vn : Nat) (st : Sys) : Nat × Sys :=
  (st.closeStatus vn,
   { st with vnodeRefs := fun v => if v = vn then st.vnodeRefs v - 1 else st.vnodeRefs v })

/-- Embedding of `file_doclose` (file.c:82): if this is the last reference
(`file->refs == 1`), close the vnode, destroy the lock and free the
record; otherwise `KASSERT(file->refs > 1)` and decrement.  Returns 0 on
every normal return; dereferencing a freed/invalid handle panics. -/
def file_doclose (fid : Nat) (st : Sys) : KOut Nat × Sys :=
  match st.heap fid with
  | none => (KOut.kfail, st)
  | some f =>
    if f.refs = 1 then
      let res := vfs_close f.vn st
      (KOut.ret 0,
       { res.2 with
         heap := fun i => if i = fid then none else res.2.heap i,
         lockLive := fun i => if i = fid then false else res.2.lockLive i })
    else if 1 < f.refs then
      (KOut.ret 0,
       { st with heap := fun i => if i = fid then some { f with refs := f.refs - 1 } else st.heap i })
    else (KOut.kfail, st)

/-- Embedding of `filetable_findfile` (file.c:281): bounds-check `fd`, then fetch the
slot; an empty slot or out-of-range `fd` yields `EBADF`.  Returns the C
result code and the handle written through `*file`.  A null
`curproc->files` would be dereferenced by the C, hence `kfail`. -/
def filetable_findfile (fd : Int) (st : Sys) : KOut (Nat × Option Nat) :=
  match st.files with
  | none => KOut.kfail
  | some slots =>
    if fd < 0 ∨ (OPEN_MAX : Int) ≤ fd then KOut.ret (EBADF, none)
    else
      match slots.getD fd.toNat none with
      | none => KOut.ret (EBADF, none)
      | some fid => KOut.ret (0, some fid)

/-- Embedding of `file_close` (file.c:108): look the descriptor up, run
`file_doclose`, and only on its success clear the slot
(`curproc->files->handles[fd] = NULL`); a nonzero `file_doclose` result
would leave the slot occupied for retry. -/
def file_close (fd : Int) (st : Sys) : KOut Nat × Sys :=
  match filetable_findfile fd st with
  | KOut.kfail => (KOut.kfail, st)
  | KOut.ret (result, fopt) =>
    if result ≠ 0 then (KOut.ret result, st)
    else
      match fopt with
      | none => (KOut.kfail, st)
      | some fid =>
        match file_doclose fid st with
        | (KOut.kfail, st1) => (KOut.kfail, st1)
        | (KOut.ret r, st1) =>
          if r ≠ 0 then (KOut.ret r, st1)
          else
            match st1.files with
            | none => (KOut.kfail, st1)
            | some slots => (KOut.ret 0, { st1 with files := some (slots.set fd.toNat none) })

/-- The ascending scan of `filetable_placefile` (file.c:265): find the
first `NULL` slot, store the handle there, and report its index; `none`
when every slot is occupied. -/
def placeLoop (fid : Nat) : List (Option Nat) → Option (Nat × List (Option Nat))
  | [] => none
  | none :: rest => some (0, some fid :: rest)
  | some g :: rest =>
    match placeLoop fid rest with
    | none => none
    | some (i, rest2) => some (i + 1, some g :: rest2)

/-- Embedding of `filetable_placefile` (file.c:259): place the handle in the smallest
available slot of `curproc->files` and return its index through `*fd`;
`EMFILE` when the table is full. -/
def filetable_placefile (fid : Nat) (st : Sys) : KOut (Nat × Option Nat) × Sys :=
  match st.files with
  | none => (KOut.kfail, st)
  | some slots =>
    match placeLoop fid slots with
    | some (i, slots2) => (KOut.ret (0, some i), { st with files := some slots2 })
    | none => (KOut.ret (EMFILE, none), st)

/-- The copy loop of `filetable_copy` (file.c:218): walk the source slots
in order; for each occupied slot bump the referenced handle's refcount
(`ft->handles[fd]->refs++` under its lock) and put the same reference at
the same index of the new table; empty slots stay empty.  Dereferencing a
dead handle panics. -/
def copyLoop (heap : Nat → Option OpenFile) :
    List (Option Nat) → KOut (List (Option Nat) × (Nat → Option OpenFile))
  | [] => KOut.ret ([], heap)
  | none :: rest =>
    match copyLoop heap rest with
    | KOut.kfail => KOut.kfail
    | KOut.ret (r, h2) => KOut.ret (none :: r, h2)
  | some fid :: rest =>
    match heap fid with
    | none => KOut.kfail
    | some f =>
      match copyLoop (fun i => if i = fid then some { f with refs := f.refs + 1 } else heap i) rest with
      | KOut.kfail => KOut.kfail
      | KOut.ret (r, h2) => KOut.ret (some fid :: r, h2)

/-- Embedding of `filetable_copy` (file.c:199): a null `curproc->files` yields
`*copy = NULL` and success; otherwise allocate the new table (`allocOk`
is the `kmalloc` oracle, failure is `ENOMEM`) and run the copy loop.
Returns the C result code and the `*copy` value. -/
def filetable_copy (allocOk : Bool) (st : Sys) : KOut (Nat × Option (List (Option Nat))) × Sys :=
  match st.files with
  | none => (KOut.ret (0, none), st)
  | some slots =>
    if ¬allocOk then (KOut.ret (ENOMEM, none), st)
    else
      match copyLoop st.heap slots with
      | KOut.kfail => (KOut.kfail, st)
      | KOut.ret (newSlots, h2) => (KOut.ret (0, some newSlots), { st with heap := h2 })

/-- Tail of `filetable_dup2file` (file.c:333): bump the handle's refcount
under its lock and install it at `newfd`. -/
def dup2_install (fid : Nat) (newfd : Int) (st : Sys) : KOut Nat × Sys :=
  match st.heap fid with
  | none => (KOut.kfail, st)
  | some f =>
    let st1 :=
      { st with heap := fun i => if i = fid then some { f with refs := f.refs + 1 } else st.heap i }
    match st1.files with
    | none => (KOut.kfail, st1)
    | some slots => (KOut.ret 0, { st1 with files := some (slots.set newfd.toNat (some fid)) })

/-- Embedding of `filetable_dup2file` (file.c:304): `EBADF` when either descriptor is
out of range or `oldfd`'s slot is empty; `oldfd == newfd` succeeds with
no change (BSD semantics); an occupied `newfd` is closed first, a nonzero
close result aborting the call; finally the refcount is bumped and the
slot set. -/
def filetable_dup2file (oldfd newfd : Int) (st : Sys) : KOut Nat × Sys :=
  match st.files with
  | none => (KOut.kfail, st)
  | some slots =>
    if oldfd < 0 ∨ (OPEN_MAX : Int) ≤ oldfd ∨ newfd < 0 ∨ (OPEN_MAX : Int) ≤ newfd then
      (KOut.ret EBADF, st)
    else
      match slots.getD oldfd.toNat none with
      | none => (KOut.ret EBADF, st)
      | some fid =>
        if oldfd = newfd then (KOut.ret 0, st)
        else
          match slots.getD newfd.toNat none with
          | some _ =>
            match file_close newfd st with
            | (KOut.kfail, st1) => (KOut.kfail, st1)
            | (KOut.ret r, st1) =>
              if r ≠ 0 then (KOut.ret r, st1)
              else dup2_install fid newfd st1
          | none => dup2_install fid newfd st

/-- Embedding of `file_open` (file.c:31).  `vfsRes` is the oracle for the opaque
`vfs_open(filename, flags, mode, &vn)` call (the filename and mode flow
only into it); `mallocOk`/`lockOk` are the `kmalloc`/`lock_create`
oracles.  Each failure after the VFS open succeeded unwinds: the vnode is
closed and any allocated record and lock are freed.  On success the new
handle has `offset = 0`, `mode = flags & O_ACCMODE`, `refs = 1` and is
placed in the table; `KASSERT` checks the access mode.  Returns the C
result code and the `*retfd` value. -/
def file_open (vfsRes : Except Nat Nat) (mallocOk lockOk : Bool) (flags : Nat) (st : Sys) :
    KOut (Nat × Option Nat) × Sys :=
  match vfsRes with
  | Except.error result => (KOut.ret (result, none), st)
  | Except.ok vn =>
    let st1 :=
      { st with vnodeRefs := fun v => if v = vn then st.vnodeRefs v + 1 else st.vnodeRefs v }
    if ¬mallocOk then
      (KOut.ret (ENOMEM, none), (vfs_close vn st1).2)
    else if ¬lockOk then
      (KOut.ret (ENOMEM, none), (vfs_close vn st1).2)
    else
      let fid := st.nextId
      let file : OpenFile := { vn := vn, offset := 0, mode := flags &&& O_ACCMODE, refs := 1 }
      let st2 :=
        { st1 with
          heap := fun i => if i = fid then some file else st1.heap i,
          lockLive := fun i => if i = fid then true else st1.lockLive i,
          nextId := st.nextId + 1 }
      if ¬(file.mode = O_RDONLY ∨ file.mode = O_WRONLY ∨ file.mode = O_RDWR) then
        (KOut.kfail, st2)
      else
        match filetable_placefile fid st2 with
        | (KOut.kfail, st3) => (KOut.kfail, st3)
        | (KOut.ret (result, fdopt), st3) =>
          if result ≠ 0 then
            let st4 :=
              { st3 with
                lockLive := fun i => if i = fid then false else st3.lockLive i,
                heap := fun i => if i = fid then none else st3.heap i }
            (KOut.ret (result, none), (vfs_close vn st4).2)
          else (KOut.ret (0, fdopt), st3)

/-- The post-allocation body of `filetable_init` (file.c:162 onward):
empty every slot of the fresh table, then open the three standard paths
in order with `O_RDONLY`, `O_WRONLY`, `O_WRONLY`, each `file_open`
taking its own VFS and allocation oracles; the first failing open aborts
and propagates its error. -/
def filetable_init_body (v1 : Except Nat Nat) (m1 l1 : Bool) (v2 : Except Nat Nat) (m2 l2 : Bool)
    (v3 : Except Nat Nat) (m3 l3 : Bool) (st : Sys) : KOut Nat × Sys :=
  let st1 := { st with files := some (List.replicate OPEN_MAX none) }
  match file_open v1 m1 l1 O_RDONLY st1 with
    | (KOut.kfail, st2) => (KOut.kfail, st2)
    | (KOut.ret (r1, _), st2) =>
      if r1 ≠ 0 then (KOut.ret r1, st2)
      else
        match file_open v2 m2 l2 O_WRONLY st2 with
        | (KOut.kfail, st3) => (KOut.kfail, st3)
        | (KOut.ret (r2, _), st3) =>
          if r2 ≠ 0 then (KOut.ret r2, st3)
          else
            match file_open v3 m3 l3 O_WRONLY st3 with
            | (KOut.kfail, st4) => (KOut.kfail, st4)
            | (KOut.ret (r3, _), st4) =>
              if r3 ≠ 0 then (KOut.ret r3, st4)
              else (KOut.ret 0, st4)

/-- Embedding of `filetable_init` (file.c:141): the entry guards — `KASSERT` that
each bootstrap path fits the 32-byte buffer (`strlen < 32`) and that the
process has no table yet — then the table allocation (`tAlloc` oracle,
failure `ENOMEM`) followed by the body above. -/
def filetable_init (inpath outpath errpath : String)
    (tAlloc : Bool) (v1 : Except Nat Nat) (m1 l1 : Bool) (v2 : Except Nat Nat) (m2 l2 : Bool)
    (v3 : Except Nat Nat) (m3 l3 : Bool) (st : Sys) : KOut Nat × Sys :=
  if ¬(inpath.length < 32 ∧ outpath.length < 32 ∧ errpath.length < 32) then (KOut.kfail, st)
  else if st.files ≠ none then (KOut.kfail, st)
  else if ¬tAlloc then (KOut.ret ENOMEM, st)
  else filetable_init_body v1 m1 l1 v2 m2 l2 v3 m3 l3 st

/-- The spec's handle-existence invariant: every live `openfile` has
`refs ≥ 1`. -/
def HeapInv (st : Sys) : Prop :=
  ∀ fid f, st.heap fid = some f → 1 ≤ f.refs

/-- Number of slots of a table that reference handle `fid` (the
"aliasing slots" of the spec). -/
def countSlot : List (Option Nat) → Nat → Nat
  | [], _ => 0
  | none :: rest, fid => countSlot rest fid
  | some g :: rest, fid => (if g = fid then 1 else 0) + countSlot rest fid

/-- A concrete one-handle state exercising the final-release path: slot 0
holds handle 0 (vnode 7, `refs = 1`), and the VFS reports status 5 when
vnode 7 is closed. -/
def stLast : Sys :=
  { files := some (some 0 :: List.replicate 127 none)
    heap := fun i => if i = 0 then some ⟨7, 0, 0, 1⟩ else none
    lockLive := fun i => i = 0
    vnodeRefs := fun v => if v = 7 then 1 else 0
    closeStatus := fun _ => 5
    nextId := 1 }

/-- Updating a slot leaves every other slot's `getD` view unchanged. -/
theorem getD_set_of_ne :
    ∀ (l : List (Option Nat)) (a : Option Nat) (i j : Nat), i ≠ j →
      (l.set i a).getD j none = l.getD j none := by
  intro l
  induction l with
  | nil => intro a i j _; rfl
  | cons x xs ih =>
    intro a i j hij
    cases i with
    | zero =>
      cases j with
      | zero => exact absurd rfl hij
      | succ j => rfl
    | succ i =>
      cases j with
      | zero => rfl
      | succ j => exact ih a i j (fun h => hij (by rw [h]))

/-- Updating an in-range slot makes its `getD` view the new value. -/
theorem getD_set_self :
    ∀ (l : List (Option Nat)) (a : Option Nat) (i : Nat), i < l.length →
      (l.set i a).getD i none = a := by
  intro l
  induction l with
  | nil => intro a i h; exact absurd h (by simp)
  | cons x xs ih =>
    intro a i h
    cases i with
    | zero => rfl
    | succ i => exact ih a i (by simpa using h)

/-- Branch equation of `file_doclose`: final release (`file->refs == 1`)
closes the vnode, destroys the lock and frees the record. -/
theorem file_doclose_eq_last (st : Sys) (fid : Nat) (f : OpenFile)
    (hf : st.heap fid = some f) (hr : f.refs = 1) :
    file_doclose fid st =
      (KOut.ret 0,
       { st with
         vnodeRefs := fun v => if v = f.vn then st.vnodeRefs v - 1 else st.vnodeRefs v,
         heap := fun i => if i = fid then none else st.heap i,
         lockLive := fun i => if i = fid then false else st.lockLive i }) := by
  simp only [file_doclose, hf, vfs_close]
  rw [if_pos hr]

/-- Branch equation of `file_doclose`: a non-final release only
decrements the refcount. -/
theorem file_doclose_eq_decr (st : Sys) (fid : Nat) (f : OpenFile)
    (hf : st.heap fid = some f) (hr : 1 < f.refs) :
    file_doclose fid st =
      (KOut.ret 0,
       { st with
         heap := fun i => if i = fid then some { f with refs := f.refs - 1 } else st.heap i }) := by
  simp only [file_doclose, hf, vfs_close]
  rw [if_neg (by omega), if_pos hr]

/-- The heap invariant of the concrete state `stLast`. -/
theorem stLast_heapInv : HeapInv stLast := by
  intro fid f hf
  have hf' : (if fid = 0 then some (⟨7, 0, 0, 1⟩ : OpenFile) else none) = some f := hf
  split at hf'
  · injection hf' with h2; rw [← h2]
  · exact Option.noConfusion hf'

/-- C1: while a handle exists its refcount is at least 1 (`HeapInv`);
`file_doclose` preserves this invariant, returns 0, destroys the handle
(vnode closed, lock destroyed, record freed) exactly when it finds
`refs = 1` — after which the handle no longer exists, so destruction
cannot recur — and otherwise only decrements the refcount. -/
theorem C1_doclose_preserves_refcount_invariant (st : Sys) (fid : Nat) (f : OpenFile)
    (hinv : HeapInv st) (hf : st.heap fid = some f) :
    (file_doclose fid st).1 = KOut.ret 0 ∧
    HeapInv (file_doclose fid st).2 ∧
    (f.refs = 1 →
      (file_doclose fid st).2.heap fid = none ∧
      (file_doclose fid st).2.lockLive fid = false ∧
      (file_doclose fid st).2.vnodeRefs f.vn = st.vnodeRefs f.vn - 1) ∧
    (1 < f.refs →
      (file_doclose fid st).2.heap fid = some { f with refs := f.refs - 1 } ∧
      (file_doclose fid st).2.vnodeRefs = st.vnodeRefs ∧
      (file_doclose fid st).2.lockLive = st.lockLive) := by
  have h1 : 1 ≤ f.refs := hinv fid f hf
  by_cases hr : f.refs = 1
  · rw [file_doclose_eq_last st fid f hf hr]
    refine ⟨rfl, ?_, fun _ => ⟨by simp, by simp, by simp⟩, fun hgt => by omega⟩
    intro fid' f' hf'
    simp only at hf'
    by_cases he : fid' = fid
    · rw [if_pos he] at hf'
      exact Option.noConfusion hf'
    · rw [if_neg he] at hf'
      exact hinv fid' f' hf'
  · have hgt : 1 < f.refs := by omega
    rw [file_doclose_eq_decr st fid f hf hgt]
    refine ⟨rfl, ?_, fun h1' => absurd h1' hr, fun _ => ⟨by simp, rfl, rfl⟩⟩
    intro fid' f' hf'
    simp only at hf'
    by_cases he : fid' = fid
    · rw [if_pos he] at hf'
      injection hf' with h2
      rw [← h2]
      show 1 ≤ f.refs - 1
      omega
    · rw [if_neg he] at hf'
      exact hinv fid' f' hf'

/-- C1 witness: applying the invariant-preservation theorem to the
concrete state `stLast`. -/
theorem C1_witness :
    (file_doclose 0 stLast).1 = KOut.ret 0 ∧
    HeapInv (file_doclose 0 stLast).2 ∧
    ((⟨7, 0, 0, 1⟩ : OpenFile).refs = 1 →
      (file_doclose 0 stLast).2.heap 0 = none ∧
      (file_doclose 0 stLast).2.lockLive 0 = false ∧
      (file_doclose 0 stLast).2.vnodeRefs 7 = stLast.vnodeRefs 7 - 1) ∧
    (1 < (⟨7, 0, 0, 1⟩ : OpenFile).refs →
      (file_doclose 0 stLast).2.heap 0 = some { (⟨7, 0, 0, 1⟩ : OpenFile) with refs := 0 } ∧
      (file_doclose 0 stLast).2.vnodeRefs = stLast.vnodeRefs ∧
      (file_doclose 0 stLast).2.lockLive = stLast.lockLive) :=
  C1_doclose_preserves_refcount_invariant stLast 0 ⟨7, 0, 0, 1⟩ stLast_heapInv rfl

/-- C2 counterexample: on the final release of handle 0 in `stLast`, the
underlying VFS close reports status 5, but `file_doclose` returns 0, not
that status, while still freeing the handle. -/
theorem C2_counterexample :
    stLast.closeStatus 7 = 5 ∧
    (file_doclose 0 stLast).1 ≠ KOut.ret (stLast.closeStatus 7) ∧
    (file_doclose 0 stLast).1 = KOut.ret 0 ∧
    (file_doclose 0 stLast).2.heap 0 = none := by
  refine ⟨rfl, by decide, rfl, rfl⟩

/-- C2 (amended): the release `file_doclose` returns 0 (success) on every release of
a live handle — the underlying VFS close reports no status to this code —
and on the final release the handle is freed (and its lock destroyed)
regardless of the underlying close's outcome. -/
theorem C2_release_returns_success (st : Sys) (fid : Nat) (f : OpenFile)
    (hf : st.heap fid = some f) (href : 1 ≤ f.refs) :
    (file_doclose fid st).1 = KOut.ret 0 ∧
    (f.refs = 1 →
      (file_doclose fid st).2.heap fid = none ∧
      (file_doclose fid st).2.lockLive fid = false) := by
  by_cases hr : f.refs = 1
  · rw [file_doclose_eq_last st fid f hf hr]
    exact ⟨rfl, fun _ => ⟨by simp, by simp⟩⟩
  · have hgt : 1 < f.refs := by omega
    rw [file_doclose_eq_decr st fid f hf hgt]
    exact ⟨rfl, fun h1 => absurd h1 hr⟩

/-- Releasing via `file_doclose` either returns 0 or panics; it never returns a
nonzero result code. -/
theorem file_doclose_result (st : Sys) (fid : Nat) :
    (file_doclose fid st).1 = KOut.ret 0 ∨ (file_doclose fid st).1 = KOut.kfail := by
  cases hh : st.heap fid with
  | none => right; simp only [file_doclose, hh]
  | some f =>
    by_cases h1 : f.refs = 1
    · left; rw [file_doclose_eq_last st fid f hh h1]
    · by_cases hg : 1 < f.refs
      · left; rw [file_doclose_eq_decr st fid f hh hg]
      · right
        simp only [file_doclose, hh, vfs_close]
        rw [if_neg h1, if_neg hg]

/-- Releasing via `file_doclose` never touches the descriptor table. -/
theorem file_doclose_preserves_files (st : Sys) (fid : Nat) :
    (file_doclose fid st).2.files = st.files := by
  cases hh : st.heap fid with
  | none => simp only [file_doclose, hh]
  | some f =>
    by_cases h1 : f.refs = 1
    · rw [file_doclose_eq_last st fid f hh h1]
    · by_cases hg : 1 < f.refs
      · rw [file_doclose_eq_decr st fid f hh hg]
      · simp only [file_doclose, hh, vfs_close]
        rw [if_neg h1, if_neg hg]

/-- Branch equation of `filetable_findfile`: a successful lookup. -/
theorem filetable_findfile_eq_ok (st : Sys) (fd : Int) (fid : Nat) (slots : List (Option Nat))
    (hft : st.files = some slots) (hb : ¬(fd < 0 ∨ (OPEN_MAX : Int) ≤ fd))
    (hs : slots.getD fd.toNat none = some fid) :
    filetable_findfile fd st = KOut.ret (0, some fid) := by
  simp only [filetable_findfile, hft]
  rw [if_neg hb]
  simp only [hs]

/-- Branch equation of `filetable_findfile`: an out-of-range descriptor. -/
theorem filetable_findfile_eq_range (st : Sys) (fd : Int) (slots : List (Option Nat))
    (hft : st.files = some slots) (hb : fd < 0 ∨ (OPEN_MAX : Int) ≤ fd) :
    filetable_findfile fd st = KOut.ret (EBADF, none) := by
  simp only [filetable_findfile, hft]
  rw [if_pos hb]

/-- Branch equation of `filetable_findfile`: an empty slot. -/
theorem filetable_findfile_eq_empty (st : Sys) (fd : Int) (slots : List (Option Nat))
    (hft : st.files = some slots) (hb : ¬(fd < 0 ∨ (OPEN_MAX : Int) ≤ fd))
    (hs : slots.getD fd.toNat none = none) :
    filetable_findfile fd st = KOut.ret (EBADF, none) := by
  simp only [filetable_findfile, hft]
  rw [if_neg hb]
  simp only [hs]

/-- Every return value of `filetable_findfile` carries result code 0 or
`EBADF`. -/
theorem filetable_findfile_result (st : Sys) (fd : Int) :
    filetable_findfile fd st = KOut.kfail ∨
    filetable_findfile fd st = KOut.ret (EBADF, none) ∨
    ∃ fid slots, st.files = some slots ∧ ¬(fd < 0 ∨ (OPEN_MAX : Int) ≤ fd) ∧
      slots.getD fd.toNat none = some fid ∧
      filetable_findfile fd st = KOut.ret (0, some fid) := by
  cases hft : st.files with
  | none => left; simp only [filetable_findfile, hft]
  | some slots =>
    by_cases hb : fd < 0 ∨ (OPEN_MAX : Int) ≤ fd
    · right; left; exact filetable_findfile_eq_range st fd slots hft hb
    · cases hs : slots.getD fd.toNat none with
      | none => right; left; exact filetable_findfile_eq_empty st fd slots hft hb hs
      | some fid =>
        right; right
        exact ⟨fid, slots, rfl, hb, hs, filetable_findfile_eq_ok st fd fid slots hft hb hs⟩

/-- Branch equation of `file_close`: a valid descriptor whose slot holds
a live handle is closed successfully and its slot is emptied. -/
theorem file_close_eq_ok (st : Sys) (fd : Int) (fid : Nat) (slots : List (Option Nat))
    (f : OpenFile) (hft : st.files = some slots) (hb : ¬(fd < 0 ∨ (OPEN_MAX : Int) ≤ fd))
    (hs : slots.getD fd.toNat none = some fid)
    (hf : st.heap fid = some f) (hr : 1 ≤ f.refs) :
    file_close fd st =
      (KOut.ret 0,
       { (file_doclose fid st).2 with files := some (slots.set fd.toNat none) }) := by
  have hff := filetable_findfile_eq_ok st fd fid slots hft hb hs
  rcases hp : file_doclose fid st with ⟨q, st1⟩
  have hq : q = KOut.ret 0 := by
    rcases file_doclose_result st fid with h | h
    · rw [hp] at h; exact h
    · rw [hp] at h
      rcases C2_release_returns_success st fid f hf hr with ⟨h0, _⟩
      rw [hp] at h0
      exact absurd (h0 ▸ h) (by intro hx; exact KOut.noConfusion hx)
  subst hq
  have hfiles : st1.files = some slots := by
    have := file_doclose_preserves_files st fid
    rw [hp] at this
    rw [this, hft]
  simp only [file_close, hff, hp, hfiles]
  norm_num

/-- Branch equation of `file_close`: `EBADF` on an out-of-range
descriptor or an empty slot, with the state untouched. -/
theorem file_close_eq_ebadf (st : Sys) (fd : Int) (slots : List (Option Nat))
    (hft : st.files = some slots)
    (hb : (fd < 0 ∨ (OPEN_MAX : Int) ≤ fd) ∨ slots.getD fd.toNat none = none) :
    file_close fd st = (KOut.ret EBADF, st) := by
  have hff : filetable_findfile fd st = KOut.ret (EBADF, none) := by
    rcases hb with hb | hs
    · exact filetable_findfile_eq_range st fd slots hft hb
    · by_cases hb2 : fd < 0 ∨ (OPEN_MAX : Int) ≤ fd
      · exact filetable_findfile_eq_range st fd slots hft hb2
      · exact filetable_findfile_eq_empty st fd slots hft hb2 hs
  simp only [file_close, hff, EBADF]
  norm_num

/-- C9: the release `file_doclose` never returns a nonzero result code (the
`vfs_close` outcome is not propagated); hence `file_close` can only fail
with `EBADF`, and whenever a valid occupied descriptor reaches the
release — as in `file_close`'s "leave file open for possible retry"
branch and the abort-on-close-failure branch of `filetable_dup2file` —
the close returns 0, so those error branches are unreachable. -/
theorem C9_doclose_always_returns_zero (st : Sys) :
    (∀ fid r, (file_doclose fid st).1 = KOut.ret r → r = 0) ∧
    (∀ fd r, (file_close fd st).1 = KOut.ret r → r = 0 ∨ r = EBADF) ∧
    (∀ fd fid slots f, st.files = some slots → ¬(fd < 0 ∨ (OPEN_MAX : Int) ≤ fd) →
      slots.getD fd.toNat none = some fid → st.heap fid = some f → 1 ≤ f.refs →
      (file_close fd st).1 = KOut.ret 0) := by
  refine ⟨?_, ?_, ?_⟩
  · intro fid r h
    rcases file_doclose_result st fid with h0 | h0
    · rw [h0] at h; injection h with h2; exact h2.symm
    · rw [h0] at h; exact KOut.noConfusion h
  · intro fd r h
    rcases filetable_findfile_result st fd with hff | hff | ⟨fid, slots, hft, hb, hs, hff⟩
    · simp only [file_close, hff] at h
      exact KOut.noConfusion h
    · simp only [file_close, hff, EBADF] at h
      norm_num at h
      right
      rw [← h]
      rfl
    · rcases hp : file_doclose fid st with ⟨q, st1⟩
      rcases file_doclose_result st fid with h0 | h0 <;> rw [hp] at h0 <;> subst h0
      · have hfiles : st1.files = some slots := by
          have := file_doclose_preserves_files st fid
          rw [hp] at this
          rw [this, hft]
        simp only [file_close, hff, hp, hfiles] at h
        norm_num at h
        left
        exact h.symm
      · simp only [file_close, hff, hp] at h
        norm_num at h
        exact KOut.noConfusion h
  · intro fd fid slots f hft hb hs hf hr
    rw [file_close_eq_ok st fd fid slots f hft hb hs hf hr]

/-- C9 witness: the three parts applied at the concrete state `stLast`
(descriptor 0 holds live handle 0). -/
theorem C9_witness :
    (0 : Nat) = 0 ∧ ((0 : Nat) = 0 ∨ (0 : Nat) = EBADF) ∧ (file_close 0 stLast).1 = KOut.ret 0 :=
  ⟨(C9_doclose_always_returns_zero stLast).1 0 0 (by decide),
   (C9_doclose_always_returns_zero stLast).2.1 0 0 (by decide),
   (C9_doclose_always_returns_zero stLast).2.2 0 0 (some 0 :: List.replicate 127 none)
     ⟨7, 0, 0, 1⟩ rfl (by decide) (by decide) rfl (by decide)⟩

/-- Releasing one handle with `file_doclose` does not move any other handle. -/
theorem file_doclose_heap_other (st : Sys) (g fid : Nat) (hne : fid ≠ g) :
    (file_doclose g st).2.heap fid = st.heap fid := by
  cases hh : st.heap g with
  | none => simp only [file_doclose, hh]
  | some h =>
    by_cases h1 : h.refs = 1
    · rw [file_doclose_eq_last st g h hh h1]
      simp only [if_neg hne]
    · by_cases hg2 : 1 < h.refs
      · rw [file_doclose_eq_decr st g h hh hg2]
        simp only [if_neg hne]
      · simp only [file_doclose, hh, vfs_close]
        rw [if_neg h1, if_neg hg2]

/-- C5: closing via `file_close` fails with `EBADF` on an out-of-range descriptor or
an empty slot, leaving the state untouched; on a valid occupied
descriptor it releases the handle and empties exactly that slot (all
other slots keep their contents), merely decrementing the refcount when
the handle is aliased (`refs > 1`, the handle stays live) and freeing the
handle on the final reference.  The retry branch for a failed release is
vacuous because the release always returns 0 (see C9). -/
theorem C5_close_empties_exactly_one_slot (st : Sys) (fd : Int) (slots : List (Option Nat))
    (hft : st.files = some slots) (hlen : slots.length = OPEN_MAX) :
    ((fd < 0 ∨ (OPEN_MAX : Int) ≤ fd ∨ slots.getD fd.toNat none = none) →
      file_close fd st = (KOut.ret EBADF, st)) ∧
    (∀ fid f, 0 ≤ fd → fd < OPEN_MAX → slots.getD fd.toNat none = some fid →
      st.heap fid = some f → 1 ≤ f.refs →
      (file_close fd st).1 = KOut.ret 0 ∧
      (file_close fd st).2.files = some (slots.set fd.toNat none) ∧
      (slots.set fd.toNat none).getD fd.toNat none = none ∧
      (∀ j, j ≠ fd.toNat → (slots.set fd.toNat none).getD j none = slots.getD j none) ∧
      (1 < f.refs → (file_close fd st).2.heap fid = some { f with refs := f.refs - 1 }) ∧
      (f.refs = 1 → (file_close fd st).2.heap fid = none)) := by
  constructor
  · intro hb
    apply file_close_eq_ebadf st fd slots hft
    rcases hb with h | h | h
    · exact Or.inl (Or.inl h)
    · exact Or.inl (Or.inr h)
    · exact Or.inr h
  · intro fid f h0 hlt hs hf hr
    have hb : ¬(fd < 0 ∨ (OPEN_MAX : Int) ≤ fd) := by
      intro hx
      rcases hx with hx | hx <;> omega
    rw [file_close_eq_ok st fd fid slots f hft hb hs hf hr]
    refine ⟨rfl, rfl, ?_, ?_, ?_, ?_⟩
    · apply getD_set_self
      rw [hlen]
      omega
    · intro j hj
      exact getD_set_of_ne slots none fd.toNat j (fun h => hj h.symm)
    · intro hg
      rw [show ({ (file_doclose fid st).2 with
            files := some (slots.set fd.toNat none) } : Sys).heap fid =
          (file_doclose fid st).2.heap fid from rfl]
      rw [file_doclose_eq_decr st fid f hf hg]
      simp
    · intro h1
      rw [show ({ (file_doclose fid st).2 with
            files := some (slots.set fd.toNat none) } : Sys).heap fid =
          (file_doclose fid st).2.heap fid from rfl]
      rw [file_doclose_eq_last st fid f hf h1]
      simp

/-- C5 witness: closing descriptor 0 of the concrete state `stLast`. -/
theorem C5_witness :
    (file_close 0 stLast).1 = KOut.ret 0 ∧
    (file_close 0 stLast).2.files =
      some ((some 0 :: List.replicate 127 none).set 0 none) ∧
    ((some 0 :: List.replicate 127 none).set 0 none).getD 0 none = none ∧
    (∀ j, j ≠ (0 : Int).toNat →
      ((some 0 :: List.replicate 127 none).set 0 none).getD j none =
        (some 0 :: List.replicate 127 none).getD j none) ∧
    (1 < (⟨7, 0, 0, 1⟩ : OpenFile).refs →
      (file_close 0 stLast).2.heap 0 = some { (⟨7, 0, 0, 1⟩ : OpenFile) with refs := 0 }) ∧
    ((⟨7, 0, 0, 1⟩ : OpenFile).refs = 1 → (file_close 0 stLast).2.heap 0 = none) :=
  (C5_close_empties_exactly_one_slot stLast 0 (some 0 :: List.replicate 127 none) rfl rfl).2
    0 ⟨7, 0, 0, 1⟩ (by decide) (by decide) rfl rfl (by decide)

/-- The ascending scan finds the smallest empty index when one exists. -/
theorem placeLoop_of_mem (fid : Nat) :
    ∀ slots : List (Option Nat), none ∈ slots →
      ∃ i, placeLoop fid slots = some (i, slots.set i (some fid)) ∧
        slots.getD i none = none ∧ (∀ j, j < i → slots.getD j none ≠ none) := by
  intro slots
  induction slots with
  | nil => intro h; simp at h
  | cons x rest ih =>
    intro h
    cases x with
    | none =>
      exact ⟨0, rfl, rfl, fun j hj => absurd hj (by omega)⟩
    | some g =>
      have hrest : none ∈ rest := by
        rcases List.mem_cons.mp h with h0 | h0
        · exact Option.noConfusion h0
        · exact h0
      obtain ⟨i, hpl, hget, hmin⟩ := ih hrest
      refine ⟨i + 1, ?_, hget, ?_⟩
      · simp only [placeLoop, hpl]
        rfl
      · intro j hj
        cases j with
        | zero => simp [List.getD]
        | succ j => exact hmin j (by omega)

/-- The ascending scan reports a full table when no slot is empty. -/
theorem placeLoop_of_full (fid : Nat) :
    ∀ slots : List (Option Nat), none ∉ slots → placeLoop fid slots = none := by
  intro slots
  induction slots with
  | nil => intro _; rfl
  | cons x rest ih =>
    intro h
    cases x with
    | none => exact absurd (List.mem_cons_self _ _) h
    | some g =>
      have hr : none ∉ rest := fun hm => h (List.mem_cons_of_mem _ hm)
      simp only [placeLoop, ih hr]

/-- C6: with at least one empty slot, `filetable_placefile` stores the
handle in the smallest-index empty slot and returns that index; with no
empty slot it returns `EMFILE` and leaves the whole state (so every
slot) unchanged. -/
theorem C6_placefile_smallest_slot (st : Sys) (fid : Nat) (slots : List (Option Nat))
    (hft : st.files = some slots) :
    (none ∈ slots →
      ∃ i, filetable_placefile fid st =
          (KOut.ret (0, some i), { st with files := some (slots.set i (some fid)) }) ∧
        slots.getD i none = none ∧ (∀ j, j < i → slots.getD j none ≠ none)) ∧
    (none ∉ slots → filetable_placefile fid st = (KOut.ret (EMFILE, none), st)) := by
  constructor
  · intro hm
    obtain ⟨i, hpl, hget, hmin⟩ := placeLoop_of_mem fid slots hm
    refine ⟨i, ?_, hget, hmin⟩
    simp only [filetable_placefile, hft, hpl]
  · intro hm
    simp only [filetable_placefile, hft, placeLoop_of_full fid slots hm]

/-- C6 witness: placing handle 9 in `stLast` (slot 0 occupied, slot 1 is
the smallest empty index). -/
theorem C6_witness :
    ∃ i, filetable_placefile 9 stLast =
        (KOut.ret (0, some i),
         { stLast with files := some ((some 0 :: List.replicate 127 none).set i (some 9)) }) ∧
      (some 0 :: List.replicate 127 none).getD i none = none ∧
      (∀ j, j < i → (some 0 :: List.replicate 127 none).getD j none ≠ none) :=
  (C6_placefile_smallest_slot stLast 9 (some 0 :: List.replicate 127 none) rfl).1 (by simp)

/-- Walking the source slots copies them verbatim and adds one reference
per aliasing slot to each live handle; dead ids stay dead. -/
theorem copyLoop_spec :
    ∀ (slots : List (Option Nat)) (heap : Nat → Option OpenFile),
      (∀ fid, some fid ∈ slots → heap fid ≠ none) →
      ∃ h2, copyLoop heap slots = KOut.ret (slots, h2) ∧
        (∀ fid f, heap fid = some f →
          h2 fid = some { f with refs := f.refs + countSlot slots fid }) ∧
        (∀ fid, heap fid = none → h2 fid = none) := by
  intro slots
  induction slots with
  | nil =>
    intro heap _
    refine ⟨heap, rfl, ?_, fun fid h => h⟩
    intro fid f hf
    rw [hf]
    rfl
  | cons x rest ih =>
    intro heap hlive
    cases x with
    | none =>
      obtain ⟨h2, hcl, hprop, hnone⟩ :=
        ih heap (fun fid hm => hlive fid (List.mem_cons_of_mem _ hm))
      refine ⟨h2, ?_, ?_, hnone⟩
      · simp only [copyLoop, hcl]
      · intro fid f hf
        rw [hprop fid f hf]
        rfl
    | some g =>
      have hg : heap g ≠ none := hlive g (List.mem_cons_self _ _)
      obtain ⟨fg, hfg⟩ := Option.ne_none_iff_exists'.mp hg
      have hlive1 : ∀ fid, some fid ∈ rest →
          (fun i => if i = g then some { fg with refs := fg.refs + 1 } else heap i) fid ≠ none := by
        intro fid hm
        by_cases he : fid = g
        · simp only [he, if_pos rfl]
          exact Option.noConfusion
        · simp only [if_neg he]
          exact hlive fid (List.mem_cons_of_mem _ hm)
      obtain ⟨h2, hcl, hprop, hnone⟩ :=
        ih (fun i => if i = g then some { fg with refs := fg.refs + 1 } else heap i) hlive1
      refine ⟨h2, ?_, ?_, ?_⟩
      · simp only [copyLoop, hfg, hcl]
      · intro fid f hf
        by_cases he : fid = g
        · subst he
          rw [hfg] at hf
          injection hf with hffg
          rw [← hffg]
          rw [hprop fid { fg with refs := fg.refs + 1 } (by simp)]
          have harith : fg.refs + 1 + countSlot rest fid = fg.refs + countSlot (some fid :: rest) fid := by
            show _ = fg.refs + ((if fid = fid then 1 else 0) + countSlot rest fid)
            rw [if_pos rfl]
            omega
          exact congrArg some (congrArg (OpenFile.mk fg.vn fg.offset fg.mode) harith)
        · rw [hprop fid f (by simp only [if_neg he]; exact hf)]
          have harith : f.refs + countSlot rest fid = f.refs + countSlot (some g :: rest) fid := by
            show _ = f.refs + ((if g = fid then 1 else 0) + countSlot rest fid)
            rw [if_neg (fun hx => he hx.symm)]
            omega
          exact congrArg some (congrArg (OpenFile.mk f.vn f.offset f.mode) harith)
      · intro fid hfn
        by_cases he : fid = g
        · subst he
          rw [hfn] at hfg
          exact Option.noConfusion hfg
        · exact hnone fid (by simp only [if_neg he]; exact hfn)

/-- C3: with a set source table, `filetable_copy` yields success and a
new table equal to the source slot-for-slot; every live handle's
refcount afterwards is its old value plus the number of source slots
referencing it (zero for unshared handles); an unset (`NULL`) source
table yields a `NULL` copy and success, not an error. -/
theorem C3_copy_mirrors_slots_and_refcounts (st : Sys) :
    (st.files = none → filetable_copy true st = (KOut.ret (0, none), st)) ∧
    (∀ slots, st.files = some slots → (∀ fid, some fid ∈ slots → st.heap fid ≠ none) →
      ∃ h2, filetable_copy true st = (KOut.ret (0, some slots), { st with heap := h2 }) ∧
        (∀ fid f, st.heap fid = some f →
          h2 fid = some { f with refs := f.refs + countSlot slots fid }) ∧
        (∀ fid, st.heap fid = none → h2 fid = none)) := by
  constructor
  · intro hft
    simp only [filetable_copy, hft]
  · intro slots hft hlive
    obtain ⟨h2, hcl, hprop, hnone⟩ := copyLoop_spec slots st.heap hlive
    refine ⟨h2, ?_, hprop, hnone⟩
    simp only [filetable_copy, hft, hcl]
    rw [if_neg (by simp)]

/-- C3 witness: copying the one-entry table of `stLast` (handle 0 is
referenced by exactly one slot, so its refcount goes from 1 to 2). -/
theorem C3_witness :
    ∃ h2, filetable_copy true stLast =
        (KOut.ret (0, some (some 0 :: List.replicate 127 none)), { stLast with heap := h2 }) ∧
      (∀ fid f, stLast.heap fid = some f →
        h2 fid = some { f with refs := f.refs + countSlot (some 0 :: List.replicate 127 none) fid }) ∧
      (∀ fid, stLast.heap fid = none → h2 fid = none) :=
  (C3_copy_mirrors_slots_and_refcounts stLast).2 (some 0 :: List.replicate 127 none) rfl
    (by
      intro fid hm
      have h0 : fid = 0 := by
        rcases List.mem_cons.mp hm with h | h
        · exact (Option.some.injEq _ _ ▸ h).symm ▸ rfl
        · exact absurd (List.eq_of_mem_replicate h) (by simp)
      subst h0
      exact Option.noConfusion)

/-- Branch equation of `dup2_install`: bump the refcount and set the
slot. -/
theorem dup2_install_eq (st : Sys) (fid : Nat) (newfd : Int) (f : OpenFile)
    (slots : List (Option Nat)) (hf : st.heap fid = some f) (hft : st.files = some slots) :
    dup2_install fid newfd st =
      (KOut.ret 0,
       { st with
         heap := fun i => if i = fid then some { f with refs := f.refs + 1 } else st.heap i,
         files := some (slots.set newfd.toNat (some fid)) }) := by
  simp only [dup2_install, hf, hft]

/-- Branch equation of `filetable_dup2file`: `newfd`'s slot empty. -/
theorem filetable_dup2file_eq_newempty (st : Sys) (a b : Int) (fid : Nat)
    (slots : List (Option Nat)) (hft : st.files = some slots)
    (hb : ¬(a < 0 ∨ (OPEN_MAX : Int) ≤ a ∨ b < 0 ∨ (OPEN_MAX : Int) ≤ b))
    (ha : slots.getD a.toNat none = some fid) (hab : a ≠ b)
    (hgb : slots.getD b.toNat none = none) :
    filetable_dup2file a b st = dup2_install fid b st := by
  simp only [filetable_dup2file, hft]
  rw [if_neg hb]
  simp only [ha]
  rw [if_neg hab]
  simp only [hgb]

/-- Branch equation of `filetable_dup2file`: `newfd`'s slot occupied by a
live handle, which is closed first. -/
theorem filetable_dup2file_eq_newoccupied (st : Sys) (a b : Int) (fid g : Nat)
    (slots : List (Option Nat)) (h : OpenFile) (hft : st.files = some slots)
    (hb : ¬(a < 0 ∨ (OPEN_MAX : Int) ≤ a ∨ b < 0 ∨ (OPEN_MAX : Int) ≤ b))
    (ha : slots.getD a.toNat none = some fid) (hab : a ≠ b)
    (hgb : slots.getD b.toNat none = some g)
    (hg : st.heap g = some h) (hr : 1 ≤ h.refs) :
    filetable_dup2file a b st =
      dup2_install fid b
        { (file_doclose g st).2 with files := some (slots.set b.toNat none) } := by
  have hbb : ¬(b < 0 ∨ (OPEN_MAX : Int) ≤ b) := by
    intro hx
    exact hb (by tauto)
  have hcl := file_close_eq_ok st b g slots h hft hbb hgb hg hr
  simp only [filetable_dup2file, hft]
  rw [if_neg hb]
  simp only [ha]
  rw [if_neg hab]
  simp only [hgb, hcl]
  norm_num

/-- C4 counterexample: in `stAlias` descriptors 0 and 1 both reference
handle 0 (refcount 2).  `filetable_dup2file 0 1` succeeds, yet the
handle's refcount afterwards is still 2, not the incremented 3 the claim
asserts for every successful `dup2` of distinct descriptors with `a`'s
slot occupied. -/
def stAlias : Sys :=
  { files := some (some 0 :: some 0 :: List.replicate 126 none)
    heap := fun i => if i = 0 then some ⟨7, 0, 2, 2⟩ else none
    lockLive := fun i => i = 0
    vnodeRefs := fun v => if v = 7 then 1 else 0
    closeStatus := fun _ => 0
    nextId := 1 }

/-- C4 counterexample theorem: `dup2(0, 1)` on `stAlias` succeeds but
leaves handle 0's refcount at its prior value 2 instead of incrementing
it to 3. -/
theorem C4_counterexample :
    (filetable_dup2file 0 1 stAlias).1 = KOut.ret 0 ∧
    stAlias.files = some (some 0 :: some 0 :: List.replicate 126 none) ∧
    stAlias.heap 0 = some ⟨7, 0, 2, 2⟩ ∧
    (filetable_dup2file 0 1 stAlias).2.heap 0 = some ⟨7, 0, 2, 2⟩ ∧
    (filetable_dup2file 0 1 stAlias).2.heap 0 ≠ some ⟨7, 0, 2, 3⟩ := by
  refine ⟨rfl, rfl, rfl, rfl, ?_⟩
  intro hx
  have : (⟨7, 0, 2, 2⟩ : OpenFile) = ⟨7, 0, 2, 3⟩ := by
    have h2 : (filetable_dup2file 0 1 stAlias).2.heap 0 = some ⟨7, 0, 2, 2⟩ := rfl
    rw [h2] at hx
    injection hx
  exact absurd (congrArg OpenFile.refs this) (by decide)

/-- C4 (amended): `dup2` fails with `EBADF` when either descriptor is out
of range or `a`'s slot is empty (state unchanged); for in-range `a ≠ b`
with `a`'s slot holding a live handle, it succeeds, after which `lookup`
of `a` and of `b` return that same handle (so `b` aliases `a`, sharing
offset and access mode); the handle's refcount is incremented except when
`b` already aliased the same handle, in which case it is unchanged; and
if `b` previously held a different handle with refcount 1 that handle is
destroyed (with refcount above 1 it is merely decremented). -/
theorem C4_dup2_aliases (st : Sys) (a b : Int) (slots : List (Option Nat))
    (hft : st.files = some slots) (hlen : slots.length = OPEN_MAX) :
    ((a < 0 ∨ (OPEN_MAX : Int) ≤ a ∨ b < 0 ∨ (OPEN_MAX : Int) ≤ b) →
      filetable_dup2file a b st = (KOut.ret EBADF, st)) ∧
    (¬(a < 0 ∨ (OPEN_MAX : Int) ≤ a ∨ b < 0 ∨ (OPEN_MAX : Int) ≤ b) →
      slots.getD a.toNat none = none →
      filetable_dup2file a b st = (KOut.ret EBADF, st)) ∧
    (∀ fid f, ¬(a < 0 ∨ (OPEN_MAX : Int) ≤ a ∨ b < 0 ∨ (OPEN_MAX : Int) ≤ b) → a ≠ b →
      slots.getD a.toNat none = some fid → st.heap fid = some f →
      (∀ g h, slots.getD b.toNat none = some g → st.heap g = some h → 1 ≤ h.refs) →
      (∀ g, slots.getD b.toNat none = some g → st.heap g ≠ none) →
      (slots.getD b.toNat none = some fid → 2 ≤ f.refs) →
      (filetable_dup2file a b st).1 = KOut.ret 0 ∧
      filetable_findfile a (filetable_dup2file a b st).2 = KOut.ret (0, some fid) ∧
      filetable_findfile b (filetable_dup2file a b st).2 = KOut.ret (0, some fid) ∧
      (slots.getD b.toNat none = none →
        (filetable_dup2file a b st).2.heap fid = some { f with refs := f.refs + 1 }) ∧
      (∀ g h, slots.getD b.toNat none = some g → g ≠ fid → st.heap g = some h →
        (filetable_dup2file a b st).2.heap fid = some { f with refs := f.refs + 1 } ∧
        (h.refs = 1 → (filetable_dup2file a b st).2.heap g = none) ∧
        (1 < h.refs → (filetable_dup2file a b st).2.heap g = some { h with refs := h.refs - 1 })) ∧
      (slots.getD b.toNat none = some fid →
        (filetable_dup2file a b st).2.heap fid = some f)) := by
  refine ⟨?_, ?_, ?_⟩
  · intro hb
    simp only [filetable_dup2file, hft]
    rw [if_pos hb]
  · intro hb ha
    simp only [filetable_dup2file, hft]
    rw [if_neg hb]
    simp only [ha]
  · intro fid f hb hab ha hf hliveb hlivebn h2f
    have hbounds : 0 ≤ a ∧ a < (OPEN_MAX : Int) ∧ 0 ≤ b ∧ b < (OPEN_MAX : Int) := by
      push_neg at hb
      exact ⟨hb.1, hb.2.1, hb.2.2.1, hb.2.2.2⟩
    have habn : a.toNat ≠ b.toNat := by
      intro hx
      apply hab
      omega
    have hblt : b.toNat < slots.length := by
      rw [hlen]
      omega
    have halt : a.toNat < slots.length := by
      rw [hlen]
      omega
    cases hgb : slots.getD b.toNat none with
    | none =>
      rw [filetable_dup2file_eq_newempty st a b fid slots hft hb ha hab hgb,
          dup2_install_eq st fid b f slots hf hft]
      refine ⟨rfl, ?_, ?_, fun _ => by simp, ?_, ?_⟩
      · apply filetable_findfile_eq_ok _ a fid (slots.set b.toNat (some fid)) rfl
          (by intro hx; exact hb (by tauto))
        rw [getD_set_of_ne slots (some fid) b.toNat a.toNat (fun hx => habn hx.symm)]
        exact ha
      · apply filetable_findfile_eq_ok _ b fid (slots.set b.toNat (some fid)) rfl
          (by intro hx; exact hb (by tauto))
        exact getD_set_self slots (some fid) b.toNat hblt
      · intro g h hsome
        exact Option.noConfusion hsome
      · intro hx
        exact Option.noConfusion hx
    | some g =>
      by_cases hgf : g = fid
      · have hgf2 : st.heap g = some f := by rw [hgf]; exact hf
        have h2 : 2 ≤ f.refs := h2f (by rw [hgb, hgf])
        have hdecr := file_doclose_eq_decr st g f hgf2 (by omega)
        have hheap1 : ({ (file_doclose g st).2 with
            files := some (slots.set b.toNat none) } : Sys).heap fid =
            some { f with refs := f.refs - 1 } := by
          rw [show ({ (file_doclose g st).2 with
              files := some (slots.set b.toNat none) } : Sys).heap =
              (file_doclose g st).2.heap from rfl, hdecr]
          simp only [hgf]
          simp
        rw [filetable_dup2file_eq_newoccupied st a b fid g slots f hft hb ha hab hgb hgf2
            (by omega),
          dup2_install_eq _ fid b { f with refs := f.refs - 1 }
            (slots.set b.toNat none) hheap1 rfl]
        refine ⟨rfl, ?_, ?_, ?_, ?_, ?_⟩
        · apply filetable_findfile_eq_ok _ a fid ((slots.set b.toNat none).set b.toNat (some fid)) rfl
            (by intro hx; exact hb (by tauto))
          rw [getD_set_of_ne _ (some fid) b.toNat a.toNat (fun hx => habn hx.symm),
              getD_set_of_ne slots none b.toNat a.toNat (fun hx => habn hx.symm)]
          exact ha
        · apply filetable_findfile_eq_ok _ b fid ((slots.set b.toNat none).set b.toNat (some fid)) rfl
            (by intro hx; exact hb (by tauto))
          exact getD_set_self (slots.set b.toNat none) (some fid) b.toNat (by simpa using hblt)
        · intro hx
          exact Option.noConfusion hx
        · intro g2 h2x hsome hne hh2
          injection hsome with hgg
          exact absurd (hgg.symm.trans hgf) hne
        · intro _
          have harith : f.refs - 1 + 1 = f.refs := by omega
          simp [harith]
      · have hgl : st.heap g ≠ none := hlivebn g hgb
        obtain ⟨h, hg⟩ := Option.ne_none_iff_exists'.mp hgl
        have hr : 1 ≤ h.refs := hliveb g h hgb hg
        have hfC : ({ (file_doclose g st).2 with
            files := some (slots.set b.toNat none) } : Sys).heap fid = some f := by
          rw [show ({ (file_doclose g st).2 with
              files := some (slots.set b.toNat none) } : Sys).heap =
              (file_doclose g st).2.heap from rfl,
            file_doclose_heap_other st g fid (fun hx => hgf hx.symm)]
          exact hf
        rw [filetable_dup2file_eq_newoccupied st a b fid g slots h hft hb ha hab hgb hg hr,
          dup2_install_eq _ fid b f (slots.set b.toNat none) hfC rfl]
        refine ⟨rfl, ?_, ?_, ?_, ?_, ?_⟩
        · apply filetable_findfile_eq_ok _ a fid ((slots.set b.toNat none).set b.toNat (some fid)) rfl
            (by intro hx; exact hb (by tauto))
          rw [getD_set_of_ne _ (some fid) b.toNat a.toNat (fun hx => habn hx.symm),
              getD_set_of_ne slots none b.toNat a.toNat (fun hx => habn hx.symm)]
          exact ha
        · apply filetable_findfile_eq_ok _ b fid ((slots.set b.toNat none).set b.toNat (some fid)) rfl
            (by intro hx; exact hb (by tauto))
          exact getD_set_self (slots.set b.toNat none) (some fid) b.toNat (by simpa using hblt)
        · intro hx
          exact Option.noConfusion hx
        · intro g2 h2x hsome hne hh2
          injection hsome with hgg
          subst hgg
          rw [hg] at hh2
          injection hh2 with hhh
          rw [← hhh]
          refine ⟨by simp, ?_, ?_⟩
          · intro h1
            have hlast := file_doclose_eq_last st g h hg h1
            show (fun i => if i = fid then some { f with refs := f.refs + 1 }
              else ({ (file_doclose g st).2 with
                files := some (slots.set b.toNat none) } : Sys).heap i) g = none
            simp only [if_neg (fun hx2 : g = fid => hgf hx2)]
            rw [show ({ (file_doclose g st).2 with
                files := some (slots.set b.toNat none) } : Sys).heap =
                (file_doclose g st).2.heap from rfl, hlast]
            simp
          · intro hgt
            have hdecr := file_doclose_eq_decr st g h hg hgt
            show (fun i => if i = fid then some { f with refs := f.refs + 1 }
              else ({ (file_doclose g st).2 with
                files := some (slots.set b.toNat none) } : Sys).heap i) g =
              some { h with refs := h.refs - 1 }
            simp only [if_neg (fun hx2 : g = fid => hgf hx2)]
            rw [show ({ (file_doclose g st).2 with
                files := some (slots.set b.toNat none) } : Sys).heap =
                (file_doclose g st).2.heap from rfl, hdecr]
            simp
        · intro hx
          injection hx with hgg
          exact absurd hgg hgf

/-- C4 witness: the amended theorem applied to `stLast` with `a = 0`,
`b = 1` (slot 1 empty, handle 0's refcount goes from 1 to 2). -/
theorem C4_witness :
    (filetable_dup2file 0 1 stLast).1 = KOut.ret 0 ∧
    filetable_findfile 0 (filetable_dup2file 0 1 stLast).2 = KOut.ret (0, some 0) ∧
    filetable_findfile 1 (filetable_dup2file 0 1 stLast).2 = KOut.ret (0, some 0) ∧
    ((some 0 :: List.replicate 127 none).getD (1 : Int).toNat none = none →
      (filetable_dup2file 0 1 stLast).2.heap 0 =
        some { (⟨7, 0, 0, 1⟩ : OpenFile) with refs := 2 }) ∧
    (∀ g h, (some 0 :: List.replicate 127 none).getD (1 : Int).toNat none = some g → g ≠ 0 →
      stLast.heap g = some h →
      (filetable_dup2file 0 1 stLast).2.heap 0 =
        some { (⟨7, 0, 0, 1⟩ : OpenFile) with refs := 2 } ∧
      (h.refs = 1 → (filetable_dup2file 0 1 stLast).2.heap g = none) ∧
      (1 < h.refs → (filetable_dup2file 0 1 stLast).2.heap g =
        some { h with refs := h.refs - 1 })) ∧
    ((some 0 :: List.replicate 127 none).getD (1 : Int).toNat none = some 0 →
      (filetable_dup2file 0 1 stLast).2.heap 0 = some ⟨7, 0, 0, 1⟩) :=
  (C4_dup2_aliases stLast 0 1 (some 0 :: List.replicate 127 none) rfl rfl).2.2 0
    ⟨7, 0, 0, 1⟩ (by decide) (by decide) rfl rfl
    (fun g h hg _ => by
      exact absurd hg (by
        rw [show ((some 0 :: List.replicate 127 none).getD (1 : Int).toNat none) =
          (List.replicate 127 (none : Option Nat)).getD 0 none from rfl]
        rw [show (List.replicate 127 (none : Option Nat)).getD 0 none = none from rfl]
        exact fun hx => Option.noConfusion hx))
    (fun g hg => by
      exact absurd hg (by
        rw [show ((some 0 :: List.replicate 127 none).getD (1 : Int).toNat none) =
          (List.replicate 127 (none : Option Nat)).getD 0 none from rfl]
        exact fun hx => Option.noConfusion hx))
    (fun hx => by
      exact absurd hx (by
        rw [show ((some 0 :: List.replicate 127 none).getD (1 : Int).toNat none) =
          (List.replicate 127 (none : Option Nat)).getD 0 none from rfl]
        exact fun hx2 => Option.noConfusion hx2))

/-- A VFS-side reference acquired and then released leaves the per-vnode
counts exactly as they were. -/
theorem undo_vn (vn : Nat) (st : Sys) :
    (fun v => if v = vn then (if v = vn then st.vnodeRefs v + 1 else st.vnodeRefs v) - 1
        else if v = vn then st.vnodeRefs v + 1 else st.vnodeRefs v) = st.vnodeRefs := by
  funext v
  by_cases hv : v = vn <;> simp [hv]

/-- A handle record allocated at a fresh id and then freed leaves the
heap exactly as it was. -/
theorem undo_heap (g : Nat → Option OpenFile) (fid : Nat) (x : Option OpenFile) (h : g fid = none) :
    (fun i => if i = fid then none else if i = fid then x else g i) = g := by
  funext i
  by_cases hi : i = fid
  · rw [if_pos hi, hi, h]
  · rw [if_neg hi, if_neg hi]

/-- The access-mode bits of any flags word that is not `O_ACCMODE`
itself name one of the three valid modes. -/
theorem accmode_cases (flags : Nat) (hmode : flags &&& O_ACCMODE ≠ O_ACCMODE) :
    flags &&& O_ACCMODE = O_RDONLY ∨ flags &&& O_ACCMODE = O_WRONLY ∨
      flags &&& O_ACCMODE = O_RDWR := by
  have hle : flags &&& O_ACCMODE ≤ O_ACCMODE := Nat.and_le_right
  revert hmode hle
  unfold O_RDONLY O_WRONLY O_RDWR O_ACCMODE
  intro hmode hle
  omega

/-- Branch equation of `file_open`: the VFS open itself fails; nothing
was acquired, nothing to release. -/
theorem file_open_eq_error (e : Nat) (mallocOk lockOk : Bool) (flags : Nat) (st : Sys) :
    file_open (Except.error e) mallocOk lockOk flags st = (KOut.ret (e, none), st) := rfl

/-- Branch equation of `file_open`: `kmalloc` fails after the VFS open
succeeded; the vnode is closed again and the state is exactly restored. -/
theorem file_open_eq_nomalloc (vn : Nat) (lockOk : Bool) (flags : Nat) (st : Sys) :
    file_open (Except.ok vn) false lockOk flags st = (KOut.ret (ENOMEM, none), st) := by
  simp [file_open, vfs_close]
  rw [undo_vn vn st]

/-- Branch equation of `file_open`: `lock_create` fails after the VFS
open succeeded; the record is freed, the vnode closed, the state exactly
restored. -/
theorem file_open_eq_nolock (vn : Nat) (flags : Nat) (st : Sys) :
    file_open (Except.ok vn) true false flags st = (KOut.ret (ENOMEM, none), st) := by
  simp [file_open, vfs_close]
  rw [undo_vn vn st]

/-- Branch equation of `file_open`: the table is full; the lock is
destroyed, the record freed and the vnode closed — only the id-allocator
counter moves. -/
theorem file_open_eq_emfile (st : Sys) (flags vn : Nat) (slots : List (Option Nat))
    (hft : st.files = some slots)
    (hfresh : st.heap st.nextId = none) (hlfresh : st.lockLive st.nextId = false)
    (hmode : flags &&& O_ACCMODE ≠ O_ACCMODE) (hnm : none ∉ slots) :
    file_open (Except.ok vn) true true flags st =
      (KOut.ret (EMFILE, none), { st with nextId := st.nextId + 1 }) := by
  have hpl := placeLoop_of_full st.nextId slots hnm
  simp only [file_open, vfs_close, filetable_placefile, hft, hpl]
  rw [if_neg (not_not_intro (accmode_cases flags hmode))]
  simp only [EMFILE]
  norm_num
  rw [undo_vn vn st, undo_heap st.heap st.nextId _ hfresh]
  refine ⟨rfl, ?_, rfl⟩
  funext i
  by_cases hi : i = st.nextId
  · simp [hi, hlfresh]
  · simp [hi]

/-- Branch equation of `file_open`: full success; the new handle record
(`offset = 0`, `mode = flags & O_ACCMODE`, `refs = 1`) is allocated at
the fresh id and placed where the scan put it. -/
theorem file_open_eq_success (st : Sys) (flags vn : Nat) (slots slots2 : List (Option Nat))
    (i : Nat) (hft : st.files = some slots) (hmode : flags &&& O_ACCMODE ≠ O_ACCMODE)
    (hpl : placeLoop st.nextId slots = some (i, slots2)) :
    file_open (Except.ok vn) true true flags st =
      (KOut.ret (0, some i),
       { st with
         vnodeRefs := fun v => if v = vn then st.vnodeRefs v + 1 else st.vnodeRefs v,
         heap := fun j => if j = st.nextId
           then some { vn := vn, offset := 0, mode := flags &&& O_ACCMODE, refs := 1 }
           else st.heap j,
         lockLive := fun j => if j = st.nextId then true else st.lockLive j,
         nextId := st.nextId + 1,
         files := some slots2 }) := by
  simp only [file_open, vfs_close, filetable_placefile, hft, hpl]
  rw [if_neg (not_not_intro (accmode_cases flags hmode))]
  norm_num

/-- C7: after a successful VFS open, every failure path of `file_open`
(handle allocation failure, lock creation failure, no free table slot)
releases the obtained VFS object and frees every partial allocation
before returning its error, restoring the state exactly (only the
fresh-id counter moves in the `EMFILE` case); on success the new handle
has `offset = 0`, access mode `flags & O_ACCMODE` and `refcount 1`. -/
theorem C7_open_unwinds_on_failure (st : Sys) (flags vn : Nat) (slots : List (Option Nat))
    (hft : st.files = some slots)
    (hfresh : st.heap st.nextId = none) (hlfresh : st.lockLive st.nextId = false)
    (hmode : flags &&& O_ACCMODE ≠ O_ACCMODE) :
    (∀ lockOk, file_open (Except.ok vn) false lockOk flags st = (KOut.ret (ENOMEM, none), st)) ∧
    file_open (Except.ok vn) true false flags st = (KOut.ret (ENOMEM, none), st) ∧
    (none ∉ slots →
      file_open (Except.ok vn) true true flags st =
        (KOut.ret (EMFILE, none), { st with nextId := st.nextId + 1 })) ∧
    (none ∈ slots →
      ∃ i, (file_open (Except.ok vn) true true flags st).1 = KOut.ret (0, some i) ∧
        (file_open (Except.ok vn) true true flags st).2.heap st.nextId =
          some { vn := vn, offset := 0, mode := flags &&& O_ACCMODE, refs := 1 } ∧
        (file_open (Except.ok vn) true true flags st).2.lockLive st.nextId = true ∧
        (file_open (Except.ok vn) true true flags st).2.files =
          some (slots.set i (some st.nextId))) := by
  refine ⟨fun lockOk => file_open_eq_nomalloc vn lockOk flags st,
    file_open_eq_nolock vn flags st,
    fun hnm => file_open_eq_emfile st flags vn slots hft hfresh hlfresh hmode hnm,
    fun hm => ?_⟩
  obtain ⟨i, hpl, hget, hmin⟩ := placeLoop_of_mem st.nextId slots hm
  have heq := file_open_eq_success st flags vn slots (slots.set i (some st.nextId)) i hft hmode hpl
  exact ⟨i, by rw [heq], by rw [heq]; simp, by rw [heq]; simp, by rw [heq]⟩

/-- C7 witness: opening vnode 9 read-only in `stLast` (slot 1 free,
fresh id 1). -/
theorem C7_witness :
    (∀ lockOk, file_open (Except.ok 9) false lockOk 0 stLast = (KOut.ret (ENOMEM, none), stLast)) ∧
    file_open (Except.ok 9) true false 0 stLast = (KOut.ret (ENOMEM, none), stLast) ∧
    (none ∉ (some 0 :: List.replicate 127 none) →
      file_open (Except.ok 9) true true 0 stLast =
        (KOut.ret (EMFILE, none), { stLast with nextId := stLast.nextId + 1 })) ∧
    (none ∈ (some 0 :: List.replicate 127 none) →
      ∃ i, (file_open (Except.ok 9) true true 0 stLast).1 = KOut.ret (0, some i) ∧
        (file_open (Except.ok 9) true true 0 stLast).2.heap stLast.nextId =
          some { vn := 9, offset := 0, mode := 0 &&& O_ACCMODE, refs := 1 } ∧
        (file_open (Except.ok 9) true true 0 stLast).2.lockLive stLast.nextId = true ∧
        (file_open (Except.ok 9) true true 0 stLast).2.files =
          some ((some 0 :: List.replicate 127 none).set i (some stLast.nextId))) :=
  C7_open_unwinds_on_failure stLast 0 9 (some 0 :: List.replicate 127 none) rfl rfl rfl
    (by decide)

/-- With valid path lengths and no existing table, `filetable_init`
passes its guards and runs the body. -/
theorem filetable_init_eq_body (inpath outpath errpath : String)
    (v1 : Except Nat Nat) (m1 l1 : Bool) (v2 : Except Nat Nat) (m2 l2 : Bool)
    (v3 : Except Nat Nat) (m3 l3 : Bool) (st : Sys)
    (hin : inpath.length < 32) (hout : outpath.length < 32) (herr : errpath.length < 32)
    (hft : st.files = none) :
    filetable_init inpath outpath errpath true v1 m1 l1 v2 m2 l2 v3 m3 l3 st =
      filetable_init_body v1 m1 l1 v2 m2 l2 v3 m3 l3 st := by
  simp only [filetable_init]
  rw [if_neg (not_not_intro ⟨hin, hout, herr⟩), if_neg (not_not_intro hft)]
  norm_num

/-- A fresh process state: no descriptor table yet, empty heap, no locks,
no open vnodes. -/
def stEmpty : Sys :=
  { files := none, heap := fun _ => none, lockLive := fun _ => false,
    vnodeRefs := fun _ => 0, closeStatus := fun _ => 0, nextId := 0 }

/-- C8: a successful `filetable_init` on a process with no table opens
the three standard paths in order into the lowest free slots of the
freshly emptied table — descriptor 0 holds the first path's handle
(read-only), 1 the second and 2 the third (both write-only), in that
order; an error from the VFS while opening any of the three aborts
initialization and propagates that error code. -/
theorem C8_init_standard_streams (inpath outpath errpath : String) (st : Sys)
    (hin : inpath.length < 32) (hout : outpath.length < 32) (herr : errpath.length < 32)
    (hft : st.files = none) :
    (∀ n1 n2 n3 : Nat, ∃ stF, filetable_init inpath outpath errpath true (Except.ok n1) true true
        (Except.ok n2) true true (Except.ok n3) true true st = (KOut.ret 0, stF) ∧
      stF.files = some (some st.nextId :: some (st.nextId + 1) :: some (st.nextId + 2) ::
        List.replicate 125 none) ∧
      stF.heap st.nextId = some ⟨n1, 0, O_RDONLY, 1⟩ ∧
      stF.heap (st.nextId + 1) = some ⟨n2, 0, O_WRONLY, 1⟩ ∧
      stF.heap (st.nextId + 2) = some ⟨n3, 0, O_WRONLY, 1⟩) ∧
    (∀ (e : Nat) (m1 l1 : Bool) (v2 : Except Nat Nat) (m2 l2 : Bool) (v3 : Except Nat Nat)
        (m3 l3 : Bool), e ≠ 0 →
      (filetable_init inpath outpath errpath true (Except.error e) m1 l1 v2 m2 l2
        v3 m3 l3 st).1 = KOut.ret e) ∧
    (∀ (n1 e : Nat) (m2 l2 : Bool) (v3 : Except Nat Nat) (m3 l3 : Bool), e ≠ 0 →
      (filetable_init inpath outpath errpath true (Except.ok n1) true true (Except.error e) m2 l2
        v3 m3 l3 st).1 = KOut.ret e) ∧
    (∀ (n1 n2 e : Nat) (m3 l3 : Bool), e ≠ 0 →
      (filetable_init inpath outpath errpath true (Except.ok n1) true true (Except.ok n2) true true
        (Except.error e) m3 l3 st).1 = KOut.ret e) := by
  refine ⟨?_, ?_, ?_, ?_⟩
  · intro n1 n2 n3
    rw [filetable_init_eq_body inpath outpath errpath _ _ _ _ _ _ _ _ _ st hin hout herr hft]
    have hne1 : ¬(st.nextId = st.nextId + 1) := by omega
    have hne2 : ¬(st.nextId = st.nextId + 1 + 1) := by omega
    have hne3 : ¬(st.nextId + 1 = st.nextId + 1 + 1) := by omega
    refine ⟨_, rfl, rfl, ?_, ?_, ?_⟩
    · show (if st.nextId = st.nextId + 1 + 1
          then some (⟨n3, 0, O_WRONLY &&& O_ACCMODE, 1⟩ : OpenFile)
        else if st.nextId = st.nextId + 1 then some ⟨n2, 0, O_WRONLY &&& O_ACCMODE, 1⟩
        else if st.nextId = st.nextId then some ⟨n1, 0, O_RDONLY &&& O_ACCMODE, 1⟩
        else st.heap st.nextId) = some ⟨n1, 0, O_RDONLY, 1⟩
      rw [if_neg hne2, if_neg hne1, if_pos rfl]
      rfl
    · show (if st.nextId + 1 = st.nextId + 1 + 1
          then some (⟨n3, 0, O_WRONLY &&& O_ACCMODE, 1⟩ : OpenFile)
        else if st.nextId + 1 = st.nextId + 1 then some ⟨n2, 0, O_WRONLY &&& O_ACCMODE, 1⟩
        else if st.nextId + 1 = st.nextId then some ⟨n1, 0, O_RDONLY &&& O_ACCMODE, 1⟩
        else st.heap (st.nextId + 1)) = some ⟨n2, 0, O_WRONLY, 1⟩
      rw [if_neg hne3, if_pos rfl]
      rfl
    · show (if st.nextId + 2 = st.nextId + 1 + 1
          then some (⟨n3, 0, O_WRONLY &&& O_ACCMODE, 1⟩ : OpenFile)
        else if st.nextId + 2 = st.nextId + 1 then some ⟨n2, 0, O_WRONLY &&& O_ACCMODE, 1⟩
        else if st.nextId + 2 = st.nextId then some ⟨n1, 0, O_RDONLY &&& O_ACCMODE, 1⟩
        else st.heap (st.nextId + 2)) = some ⟨n3, 0, O_WRONLY, 1⟩
      rw [if_pos rfl]
      rfl
  · intro e m1 l1 v2 m2 l2 v3 m3 l3 he
    rw [filetable_init_eq_body inpath outpath errpath _ _ _ _ _ _ _ _ _ st hin hout herr hft]
    simp only [filetable_init_body, file_open_eq_error]
    norm_num [he]
  · intro n1 e m2 l2 v3 m3 l3 he
    rw [filetable_init_eq_body inpath outpath errpath _ _ _ _ _ _ _ _ _ st hin hout herr hft]
    obtain ⟨S, hS⟩ : ∃ S, file_open (Except.ok n1) true true O_RDONLY
        { st with files := some (List.replicate OPEN_MAX none) } =
        (KOut.ret (0, some 0), S) := ⟨_, rfl⟩
    simp only [filetable_init_body, hS, file_open_eq_error]
    norm_num [he]
  · intro n1 n2 e m3 l3 he
    rw [filetable_init_eq_body inpath outpath errpath _ _ _ _ _ _ _ _ _ st hin hout herr hft]
    obtain ⟨S, hS⟩ : ∃ S, file_open (Except.ok n1) true true O_RDONLY
        { st with files := some (List.replicate OPEN_MAX none) } =
        (KOut.ret (0, some 0), S) := ⟨_, rfl⟩
    have h2 : (file_open (Except.ok n1) true true O_RDONLY
        { st with files := some (List.replicate OPEN_MAX none) }).2 = S := congrArg Prod.snd hS
    have hSfiles : S.files = some (some st.nextId :: List.replicate 127 none) := by
      rw [← h2]
      rfl
    obtain ⟨S2, hS2⟩ : ∃ S2, file_open (Except.ok n2) true true O_WRONLY S =
        (KOut.ret (0, some 1), S2) :=
      ⟨_, file_open_eq_success S O_WRONLY n2 (some st.nextId :: List.replicate 127 none)
        (some st.nextId :: some S.nextId :: List.replicate 126 none) 1 hSfiles (by decide) rfl⟩
    simp only [filetable_init_body, hS, hS2, file_open_eq_error]
    norm_num [he]

/-- C8 witness: initializing the standard streams of a fresh process
(`stEmpty`) with bootstrap path `"con:"` three times. -/
theorem C8_witness :
    (∀ n1 n2 n3 : Nat, ∃ stF, filetable_init "con:" "con:" "con:" true (Except.ok n1) true true
        (Except.ok n2) true true (Except.ok n3) true true stEmpty = (KOut.ret 0, stF) ∧
      stF.files = some (some stEmpty.nextId :: some (stEmpty.nextId + 1) ::
        some (stEmpty.nextId + 2) :: List.replicate 125 none) ∧
      stF.heap stEmpty.nextId = some ⟨n1, 0, O_RDONLY, 1⟩ ∧
      stF.heap (stEmpty.nextId + 1) = some ⟨n2, 0, O_WRONLY, 1⟩ ∧
      stF.heap (stEmpty.nextId + 2) = some ⟨n3, 0, O_WRONLY, 1⟩) ∧
    (∀ (e : Nat) (m1 l1 : Bool) (v2 : Except Nat Nat) (m2 l2 : Bool) (v3 : Except Nat Nat)
        (m3 l3 : Bool), e ≠ 0 →
      (filetable_init "con:" "con:" "con:" true (Except.error e) m1 l1 v2 m2 l2
        v3 m3 l3 stEmpty).1 = KOut.ret e) ∧
    (∀ (n1 e : Nat) (m2 l2 : Bool) (v3 : Except Nat Nat) (m3 l3 : Bool), e ≠ 0 →
      (filetable_init "con:" "con:" "con:" true (Except.ok n1) true true (Except.error e) m2 l2
        v3 m3 l3 stEmpty).1 = KOut.ret e) ∧
    (∀ (n1 n2 e : Nat) (m3 l3 : Bool), e ≠ 0 →
      (filetable_init "con:" "con:" "con:" true (Except.ok n1) true true (Except.ok n2) true true
        (Except.error e) m3 l3 stEmpty).1 = KOut.ret e) :=
  C8_init_standard_streams "con:" "con:" "con:" stEmpty (by decide) (by decide) (by decide) rfl

/-- C10: the bootstrap `filetable_init` demands bootstrap paths strictly shorter than
32 bytes and a process with no existing table; a path of length 32 or
more, or a second initialization, hits a `KASSERT` (kernel panic), not an
error return. -/
theorem C10_init_kassert_guards (inpath outpath errpath : String) (tAlloc : Bool)
    (v1 : Except Nat Nat) (m1 l1 : Bool) (v2 : Except Nat Nat) (m2 l2 : Bool)
    (v3 : Except Nat Nat) (m3 l3 : Bool) (st : Sys) :
    (¬(inpath.length < 32 ∧ outpath.length < 32 ∧ errpath.length < 32) →
      filetable_init inpath outpath errpath tAlloc v1 m1 l1 v2 m2 l2 v3 m3 l3 st =
        (KOut.kfail, st)) ∧
    (∀ t, st.files = some t →
      filetable_init inpath outpath errpath tAlloc v1 m1 l1 v2 m2 l2 v3 m3 l3 st =
        (KOut.kfail, st)) := by
  constructor
  · intro hbad
    simp only [filetable_init]
    rw [if_pos hbad]
  · intro t hft
    by_cases hlen : inpath.length < 32 ∧ outpath.length < 32 ∧ errpath.length < 32
    · simp only [filetable_init]
      rw [if_neg (not_not_intro hlen),
        if_pos (show st.files ≠ none by rw [hft]; exact fun hx => Option.noConfusion hx)]
    · simp only [filetable_init]
      rw [if_pos hlen]

/-- C10 witness: a 32-byte path panics on a fresh process, and a
re-initialization panics on `stLast`, whose table is already set. -/
theorem C10_witness :
    filetable_init "01234567890123456789012345678901" "con:" "con:" true (Except.ok 1) true true
      (Except.ok 1) true true (Except.ok 1) true true stEmpty = (KOut.kfail, stEmpty) ∧
    filetable_init "con:" "con:" "con:" true (Except.ok 1) true true (Except.ok 1) true true
      (Except.ok 1) true true stLast = (KOut.kfail, stLast) :=
  ⟨(C10_init_kassert_guards "01234567890123456789012345678901" "con:" "con:" true (Except.ok 1)
      true true (Except.ok 1) true true (Except.ok 1) true true stEmpty).1 (by decide),
   (C10_init_kassert_guards "con:" "con:" "con:" true (Except.ok 1) true true (Except.ok 1)
      true true (Except.ok 1) true true stLast).2 (some 0 :: List.replicate 127 none) rfl⟩

/-- C2 witness: the amended statement applied to the concrete state
`stLast`. -/
theorem C2_witness :
    (file_doclose 0 stLast).1 = KOut.ret 0 ∧
    ((⟨7, 0, 0, 1⟩ : OpenFile).refs = 1 →
      (file_doclose 0 stLast).2.heap 0 = none ∧
      (file_doclose 0 stLast).2.lockLive 0 = false) :=
  C2_release_returns_success stLast 0 ⟨7, 0, 0, 1⟩ (by decide) (by decide)
